import Mathlib

/-!
Verification development for the GitCode forge adapter of the Woodpecker CI
server (package `server/forge/gitcode`).

The Go source is shallowly embedded below: pure helpers become Lean
functions, Go strings are modelled at character level (the inputs of
interest are ASCII, where byte and character indices coincide), Go slices
become lists, fallible operations return `Except`, and external effects
(the HTTP round trip, the OAuth token exchange, clone-URL host extraction)
are passed in as explicit function arguments.
-/

namespace Gitcode

/-! ### Character-level models of the Go standard string functions -/

/-- Model of the substring search underlying Go `strings.Contains`:
`listInfix pat s` is true when `pat` occurs as a contiguous run in `s`. -/
def listInfix (pat : List Char) : List Char → Bool
  | [] => pat.isEmpty
  | c :: t => pat.isPrefixOf (c :: t) || listInfix pat t

/-- Model of Go `strings.Contains(s, sub)`. -/
def goContains (s sub : String) : Bool :=
  listInfix sub.data s.data

/-- Index (in characters) of the first occurrence of `pat` in the list,
`none` when absent. -/
def strIndexAux (pat : List Char) : List Char → Option Nat
  | [] => if pat.isEmpty then some 0 else none
  | c :: t =>
    if pat.isPrefixOf (c :: t) then some 0
    else (strIndexAux pat t).map (· + 1)

/-- Model of Go `strings.Index(s, pat)` (`none` stands for the Go result -1;
character index, which equals the Go byte index on ASCII input). -/
def strIndex (s pat : String) : Option Nat :=
  strIndexAux pat.data s.data

/-- Model of Go `strings.HasPrefix(s, pre)` (also Lean `String.startsWith`,
restated over the character list so that it evaluates by kernel
reduction). -/
def hasPrefixStr (s pre : String) : Bool :=
  pre.data.isPrefixOf s.data

/-- Drop the first `n` characters (Go byte slicing `s[n:]` on ASCII). -/
def dropStr (s : String) (n : Nat) : String :=
  ⟨s.data.drop n⟩

/-- Keep the first `n` characters (Go byte slicing `s[:n]` on ASCII). -/
def takeStr (s : String) (n : Nat) : String :=
  ⟨s.data.take n⟩

/-- Model of Go `strings.TrimPrefix(s, pre)`. -/
def trimPrefixStr (s pre : String) : String :=
  if hasPrefixStr s pre then dropStr s pre.data.length else s

/-- Replace every non-overlapping occurrence of `pat` (assumed non-empty,
as in all call sites of this repository) by `rep`, left to right.  The
recursion is fuelled by the input length so that it stays structural:
every step consumes at least one character, so fuel equal to the length
of the input never runs out. -/
def replaceAllAux (pat rep : List Char) : Nat → List Char → List Char
  | 0, s => s
  | _ + 1, [] => []
  | fuel + 1, c :: t =>
    if pat.isPrefixOf (c :: t) ∧ pat ≠ [] then
      rep ++ replaceAllAux pat rep fuel (t.drop (pat.length - 1))
    else
      c :: replaceAllAux pat rep fuel t

/-- Model of Go `strings.ReplaceAll(s, pat, rep)` for non-empty `pat`. -/
def replaceAll (s pat rep : String) : String :=
  ⟨replaceAllAux pat.data rep.data s.data.length s.data⟩

/-- Split a character list at every occurrence of `sep` (the semantics of
`strings.Split` for a one-character separator). -/
def splitOnCharAux (sep : Char) : List Char → List Char → List (List Char)
  | [], cur => [cur.reverse]
  | c :: t, cur =>
    if c == sep then cur.reverse :: splitOnCharAux sep t []
    else splitOnCharAux sep t (c :: cur)

/-- Split a string at every occurrence of `sep`. -/
def splitOnChar (sep : Char) (s : String) : List String :=
  (splitOnCharAux sep s.data []).map (fun l => (⟨l⟩ : String))

/-- Join strings with a slash between consecutive elements. -/
def joinSlash (parts : List String) : String :=
  ⟨List.intercalate [Char.ofNat 47] (parts.map String.data)⟩

/-- Model of Go `path.Clean`: drop empty and `.` components, resolve `..`
components against the stack, keep the rooted / relative distinction. -/
def pathClean (p : String) : String :=
  if p = "" then "."
  else
    let rooted := hasPrefixStr p "/"
    let comps := (splitOnChar (Char.ofNat 47) p).filter (fun c => c ≠ "" && c ≠ ".")
    let out := comps.foldl
      (fun acc c =>
        if c = ".." then
          match acc with
          | [] => if rooted then [] else [".."]
          | a :: rest => if a = ".." then c :: a :: rest else rest
        else c :: acc) []
    let res := joinSlash out.reverse
    if rooted then
      if res = "" then "/" else "/" ++ res
    else
      if res = "" then "." else res

/-- Model of Go `path.Join(a, b)`: join the non-empty elements with a slash
and clean the result. -/
def pathJoin (a b : String) : String :=
  if a ≠ "" then pathClean (a ++ "/" ++ b)
  else if b ≠ "" then pathClean b
  else ""

/-- Model of the `net/url` fragment used by `expandAvatar` (convert.go
lines 122-125): parse `baseURL`, overwrite its `Path` with `p`, and render
it back.  Modelled for URLs of the form `scheme://host[/path]` without
query or fragment, which is the shape of every base URL this adapter
passes in; a base without `://` parses as a bare path, so rendering
returns just `p`. -/
def urlSetPath (baseURL p : String) : String :=
  match strIndex baseURL "://" with
  | some i =>
    let afterScheme := dropStr baseURL (i + 3)
    let host :=
      match strIndex afterScheme "/" with
      | some j => takeStr afterScheme j
      | none => afterScheme
    takeStr baseURL i ++ "://" ++ host ++ p
  | none => p

/-! ### Constants (unnamed gitcode.go, lines 38-48, and server/model) -/

/-- Default GitCode URL (gitcode.go line 39). -/
def defaultURL : String := "https://gitcode.com"

/-- Default GitCode API URL (gitcode.go line 40). -/
def defaultAPI : String := "https://api.gitcode.com/api/v5"

/-- The GitCode forge type tag of `server/model` (`model.ForgeTypeGitCode`). -/
def ForgeTypeGitCode : String := "gitcode"

/-! ### Domain model (`server/model`), restricted to the fields this
adapter writes.  Unset fields default to the Go zero value. -/

/-- The pipeline event kinds of `model.WebhookEvent` used by this adapter. -/
inductive WebhookEvent where
  | push
  | tag
  | pull
  | pullClosed
  | release
deriving DecidableEq, Repr

/-- The slice of `model.Pipeline` populated by this adapter. -/
structure Pipeline where
  event : WebhookEvent
  commit : String := ""
  ref : String := ""
  forgeURL : String := ""
  branch : String := ""
  message : String := ""
  avatar : String := ""
  author : String := ""
  email : String := ""
  sender : String := ""
  title : String := ""
  refspec : String := ""
  timestamp : Int := 0
  changedFiles : List String := []
  pullRequestLabels : List String := []
  fromFork : Bool := false
  isPrerelease : Bool := false
deriving DecidableEq, Repr

/-- `model.Perm`. -/
structure Perm where
  pull : Bool := false
  push : Bool := false
  admin : Bool := false
deriving DecidableEq, Repr

/-- The slice of `model.Repo` populated by this adapter. -/
structure Repo where
  forgeRemoteID : String := ""
  owner : String := ""
  name : String := ""
  fullName : String := ""
  avatar : String := ""
  forgeURL : String := ""
  clone : String := ""
  cloneSSH : String := ""
  branch : String := ""
  isSCMPrivate : Bool := false
  perm : Perm := {}
deriving DecidableEq, Repr

/-- `model.Netrc` (the `Type` field is renamed `netType`: `type` clashes
with Lean syntax). -/
structure Netrc where
  login : String := ""
  password : String := ""
  machine : String := ""
  netType : String := ""
deriving DecidableEq, Repr

/-- The slice of `model.User` populated by `GitCode.Login`. -/
structure ModelUser where
  accessToken : String := ""
  refreshToken : String := ""
  expiry : Int := 0
  login : String := ""
  email : String := ""
  forgeRemoteID : String := ""
  avatar : String := ""
deriving DecidableEq, Repr

/-- `model.PullRequest`. -/
structure ModelPullRequest where
  index : String := ""
  title : String := ""
deriving DecidableEq, Repr

/-! ### Webhook DTOs (unnamed types.go, part_002) -/

/-- One entry of the `commits` array of a push hook
(part_002 lines 162-174). -/
structure PushCommit where
  id : String := ""
  message : String := ""
  timestamp : String := ""
  url : String := ""
  authorName : String := ""
  authorEmail : String := ""
  added : List String := []
  removed : List String := []
  modified : List String := []
deriving DecidableEq, Repr

/-- The `project` object embedded in both push and pull-request hooks
(part_002 lines 20-36 and 143-159; the two anonymous Go structs have the
same fields).  `Namespace` is renamed `nspace`: a Lean keyword. -/
structure HookProject where
  id : Int := 0
  name : String := ""
  description : String := ""
  webURL : String := ""
  avatarURL : String := ""
  gitSSHURL : String := ""
  gitHTTPURL : String := ""
  nspace : String := ""
  visibilityLevel : Int := 0
  pathWithNamespace : String := ""
  defaultBranch : String := ""
  homepage : String := ""
  url : String := ""
  sshURL : String := ""
  httpURL : String := ""
deriving DecidableEq, Repr

/-- `pushHook` (part_002 lines 124-196); the unused `repository`,
`push_options` and statistics fields are omitted. -/
structure pushHook where
  objectKind : String := ""
  eventName : String := ""
  before : String := ""
  after : String := ""
  ref : String := ""
  checkoutSha : String := ""
  message : String := ""
  userID : Int := 0
  userName : String := ""
  userUsername : String := ""
  userEmail : String := ""
  userAvatar : String := ""
  projectID : Int := 0
  project : HookProject := {}
  commits : List PushCommit := []
  totalCommitsCount : Int := 0
deriving DecidableEq, Repr

/-- The `user` object of a pull-request hook (part_002 lines 12-18). -/
structure PRUser where
  id : Int := 0
  name : String := ""
  username : String := ""
  email : String := ""
  avatarURL : String := ""
deriving DecidableEq, Repr

/-- The `last_commit` object of a merge request (part_002 lines 67-76). -/
structure PRLastCommit where
  id : String := ""
  message : String := ""
  url : String := ""
  timestamp : String := ""
  authorName : String := ""
  authorEmail : String := ""
deriving DecidableEq, Repr

/-- The `source` / `target` project objects of a merge request
(part_002 lines 78-106).  `Namespace` is renamed `nspace`. -/
structure PRSide where
  id : Int := 0
  name : String := ""
  pathWithNamespace : String := ""
  webURL : String := ""
  gitHTTPURL : String := ""
  gitSSHURL : String := ""
  nspace : String := ""
  visibilityLevel : Int := 0
  defaultBranch : String := ""
  avatarURL : String := ""
  homepage : String := ""
  url : String := ""
deriving DecidableEq, Repr

/-- The `merge_request` object of a pull-request hook
(part_002 lines 38-107). -/
structure MergeRequest where
  id : Int := 0
  iid : Int := 0
  title : String := ""
  description : String := ""
  state : String := ""
  createdAt : String := ""
  updatedAt : String := ""
  targetBranch : String := ""
  sourceBranch : String := ""
  authorID : Int := 0
  targetProjectID : Int := 0
  sourceProjectID : Int := 0
  action : String := ""
  act : String := ""
  actDesc : String := ""
  url : String := ""
  mergeStatus : String := ""
  workInProgress : Bool := false
  lastCommit : PRLastCommit := {}
  source : PRSide := {}
  target : PRSide := {}
deriving DecidableEq, Repr

/-- `pullRequestHook` (part_002 lines 4-121); the unused `repository`,
`labels` and `changes` fields are omitted. -/
structure pullRequestHook where
  objectKind : String := ""
  eventType : String := ""
  gitBranch : String := ""
  gitCommitNo : String := ""
  manualBuild : Bool := false
  uuid : String := ""
  user : PRUser := {}
  project : HookProject := {}
  mergeRequest : MergeRequest := {}
deriving DecidableEq, Repr

/-- `User` of the REST client (client.go lines 164-170); the `id` field is
`interface` in Go (string or number) and is kept here as its `fmt.Sprint`
rendering. -/
structure GUser where
  id : String := ""
  login : String := ""
  fullName : String := ""
  email : String := ""
  avatarURL : String := ""
deriving DecidableEq, Repr

/-- The slice of the REST `Repository` (client.go lines 173-259) read by
`pipelineFromRelease`. -/
structure GRepository where
  id : Int := 0
  fullName : String := ""
  defaultBranch : String := ""
  httpURLToRepo : String := ""
deriving DecidableEq, Repr

/-- `Release` (part_002 lines 207-217). -/
structure Release where
  id : Int := 0
  tagName : String := ""
  name : String := ""
  body : String := ""
  draft : Bool := false
  prerelease : Bool := false
deriving DecidableEq, Repr

/-- `releaseHook` (part_002 lines 199-204); the Go pointer fields are
modelled as plain values. -/
structure releaseHook where
  action : String := ""
  repo : GRepository := {}
  sender : GUser := {}
  release : Release := {}
deriving DecidableEq, Repr

/-- `PullRequest` of the REST client (client.go lines 270-283). -/
structure GPullRequest where
  id : Int := 0
  number : Int := 0
  title : String := ""
  state : String := ""
  headRef : String := ""
  headSHA : String := ""
  baseRef : String := ""
  baseSHA : String := ""
deriving DecidableEq, Repr

/-! ### convert.go -/

/-- `expandAvatar` (convert.go lines 112-128). -/
def expandAvatar (baseURL avatarURL : String) : String :=
  if avatarURL = "" then ""
  else if hasPrefixStr avatarURL "http" then avatarURL
  else if hasPrefixStr avatarURL "//" then "https:" ++ avatarURL
  else if hasPrefixStr avatarURL "/" then urlSetPath baseURL avatarURL
  else pathJoin baseURL avatarURL

/-- `fixMalformedAvatar` (helper.go lines 398-408). -/
def fixMalformedAvatar (url : String) : String :=
  match strIndex url "///" with
  | some i => dropStr url (i + 1)
  | none =>
    match strIndex url "//avatars/" with
    | some _ => replaceAll url "//avatars/" "/avatars/"
    | none => url

/-- `convertPullRequest` (convert.go lines 153-158); `strconv.Itoa` is
`toString` on `Int`. -/
def convertPullRequest (pr : GPullRequest) : ModelPullRequest :=
  { index := toString pr.number
    title := pr.title }

/-! ### helper.go

The file ships two revisions of `getChangedFilesFromPushHook`; both are
embedded (the first as `getChangedFilesFromPushHook`, the second as
`getChangedFilesFromPushHookDedup`).  `time.Now().UTC().Unix()` is passed
in as the argument `now`. -/

/-- First revision of `getChangedFilesFromPushHook`
(helper.go lines 69-73): always the empty list. -/
def getChangedFilesFromPushHook (_hook : pushHook) : List String := []

/-- The concatenation built by the second revision of
`getChangedFilesFromPushHook` (helper.go lines 263-268): each commit
contributes its added, then modified, then removed files. -/
def pushHookFiles (hook : pushHook) : List String :=
  hook.commits.foldl (fun acc c => acc ++ c.added ++ c.modified ++ c.removed) []

/-- The deduplication loop of helper.go lines 271-278: keep the first
occurrence of each file, in order.  The Go `seen` map holds exactly the
members of the accumulated output, so membership in the output models it. -/
def dedupFirst (files : List String) : List String :=
  files.foldl (fun uniq file => if uniq.contains file then uniq else uniq ++ [file]) []

/-- Second revision of `getChangedFilesFromPushHook`
(helper.go lines 262-281). -/
def getChangedFilesFromPushHookDedup (hook : pushHook) : List String :=
  dedupFirst (pushHookFiles hook)

/-- `pipelineFromPush` (helper.go lines 37-67).  The two shipped revisions
differ only in which `getChangedFilesFromPushHook` revision they call;
this embedding calls the first. -/
def pipelineFromPush (hook : pushHook) (now : Int) : Pipeline :=
  let avatar := expandAvatar defaultURL (fixMalformedAvatar hook.userAvatar)
  let pair :=
    match hook.commits with
    | c :: _ => (c.message, c.url)
    | [] => (hook.message, hook.project.webURL)
  { event := WebhookEvent.push
    commit := hook.after
    ref := hook.ref
    forgeURL := pair.2
    branch := trimPrefixStr hook.ref "refs/heads/"
    message := pair.1
    avatar := avatar
    author := hook.userUsername
    email := hook.userEmail
    timestamp := now
    sender := hook.userUsername
    changedFiles := getChangedFilesFromPushHook hook }

/-- `pipelineFromTag` (helper.go lines 284-300). -/
def pipelineFromTag (hook : pushHook) (now : Int) : Pipeline :=
  let avatar := expandAvatar defaultURL (fixMalformedAvatar hook.userAvatar)
  let ref := trimPrefixStr hook.ref "refs/tags/"
  { event := WebhookEvent.tag
    commit := hook.after
    ref := "refs/tags/" ++ ref
    forgeURL := hook.project.webURL ++ "/src/tag/" ++ ref
    message := "created tag " ++ ref
    avatar := avatar
    author := hook.userUsername
    sender := hook.userUsername
    email := hook.userEmail
    timestamp := now }

/-- `pipelineFromPullRequestHook` (helper.go lines 303-335). -/
def pipelineFromPullRequestHook (hook : pullRequestHook) : Pipeline :=
  let avatar := expandAvatar hook.project.webURL (fixMalformedAvatar hook.user.avatarURL)
  let event :=
    if hook.mergeRequest.action = "close" || hook.mergeRequest.state = "closed" then
      WebhookEvent.pullClosed
    else
      WebhookEvent.pull
  { event := event
    commit := hook.mergeRequest.lastCommit.id
    forgeURL := hook.mergeRequest.url
    ref := "refs/pull/" ++ toString hook.mergeRequest.iid ++ "/head"
    branch := hook.mergeRequest.targetBranch
    message := hook.mergeRequest.title
    author := hook.user.username
    avatar := avatar
    sender := hook.user.username
    email := hook.user.email
    title := hook.mergeRequest.title
    refspec := hook.mergeRequest.sourceBranch ++ ":" ++ hook.mergeRequest.targetBranch
    pullRequestLabels := []
    fromFork := hook.mergeRequest.source.id != hook.mergeRequest.target.id }

/-- `repoFromPullRequestHook` (helper.go lines 338-356). -/
def repoFromPullRequestHook (hook : pullRequestHook) : Repo :=
  { forgeRemoteID := toString hook.project.id
    owner := hook.project.nspace
    name := hook.project.name
    fullName := hook.project.pathWithNamespace
    avatar := hook.project.avatarURL
    forgeURL := hook.project.webURL
    clone := hook.project.gitHTTPURL
    cloneSSH := hook.project.gitSSHURL
    branch := hook.project.defaultBranch
    isSCMPrivate := hook.project.visibilityLevel == 0
    perm := { pull := true, push := true, admin := false } }

/-- `pipelineFromRelease` (helper.go lines 358-376). -/
def pipelineFromRelease (hook : releaseHook) : Pipeline :=
  let avatar := expandAvatar hook.repo.httpURLToRepo (fixMalformedAvatar hook.sender.avatarURL)
  { event := WebhookEvent.release
    ref := "refs/tags/" ++ hook.release.tagName
    forgeURL := defaultURL ++ "/" ++ hook.repo.fullName ++ "/releases/tag/" ++ hook.release.tagName
    branch := hook.repo.defaultBranch
    message := "created release " ++ hook.release.name
    avatar := avatar
    author := hook.sender.login
    sender := hook.sender.login
    email := hook.sender.email
    isPrerelease := hook.release.prerelease }

/-! ### client.go

The HTTP round trip is factored out: `makeRequestURL` embeds the URL
construction of `makeRequest` (client.go lines 56-92), and the `get`,
`post` and `delete` helpers are embedded as functions of the response they
received.  Transport-level failures (the `http.Client.Do` and
`io.ReadAll` error paths) are outside the model: the embedded helpers
start from a delivered response whose body has been read. -/

/-- An HTTP response as seen by the client helpers: its status code and
its already-read body. -/
structure Response where
  statusCode : Nat
  body : String
deriving DecidableEq, Repr

/-- The URL built by `makeRequest` (client.go lines 66-77): the API base
plus the endpoint, with the token appended as an `access_token` query
parameter when non-empty, using `&` when the URL already has a query. -/
def makeRequestURL (token endpoint : String) : String :=
  let url := defaultAPI ++ endpoint
  if token ≠ "" then
    if goContains url "?" then url ++ ("&access_token=" ++ token)
    else url ++ ("?access_token=" ++ token)
  else url

/-- The Go error string built for a status of at least 400. -/
def apiError (resp : Response) : String :=
  "API error " ++ toString resp.statusCode ++ ": " ++ resp.body

/-- `GitCodeClient.get` (client.go lines 95-123) applied to a delivered
response: fail on a status of at least 400, otherwise decode the body into
the result target when one is supplied (`result` is the JSON decoder for
the target, `none` when the Go caller passed a nil target). -/
def GitCodeClient.get (resp : Response) (result : Option (String → Except String Unit)) :
    Except String Unit :=
  if resp.statusCode ≥ 400 then
    Except.error (apiError resp)
  else
    match result with
    | none => Except.ok ()
    | some decode =>
      match decode resp.body with
      | Except.error e => Except.error ("decode JSON response: " ++ e)
      | Except.ok _ => Except.ok ()

/-- `GitCodeClient.post` (client.go lines 126-143) applied to a delivered
response; the decode error is returned unwrapped, as in the source. -/
def GitCodeClient.post (resp : Response) (result : Option (String → Except String Unit)) :
    Except String Unit :=
  if resp.statusCode ≥ 400 then
    Except.error (apiError resp)
  else
    match result with
    | none => Except.ok ()
    | some decode =>
      match decode resp.body with
      | Except.error e => Except.error e
      | Except.ok _ => Except.ok ()

/-- `GitCodeClient.delete` (client.go lines 146-159) applied to a
delivered response. -/
def GitCodeClient.delete (resp : Response) : Except String Unit :=
  if resp.statusCode ≥ 400 then
    Except.error (apiError resp)
  else
    Except.ok ()

/-! ### gitcode.go (unnamed part_000) -/

/-- The OAuth request of `forge_types.OAuthRequest`. -/
structure OAuthRequest where
  code : String := ""
  state : String := ""
deriving DecidableEq, Repr

/-- The OAuth token returned by the exchange; `expiry` is the UTC Unix
rendering of `token.Expiry`. -/
structure OAuthToken where
  accessToken : String := ""
  refreshToken : String := ""
  expiry : Int := 0
deriving DecidableEq, Repr

/-- `GitCode.Login` (gitcode.go lines 93-126).  The OAuth redirect URL is
built by the oauth2 library from the request state and is passed in as
`redirectURL`; `exchange` embeds `config.Exchange` and `getUser` embeds
`client.GetUser` for the exchanged token. -/
def GitCode.Login (req : OAuthRequest) (redirectURL : String)
    (exchange : String → Except String OAuthToken)
    (getUser : String → Except String GUser) :
    Option ModelUser × String × Option String :=
  if req.code.length = 0 then (none, redirectURL, none)
  else
    match exchange req.code with
    | Except.error e => (none, redirectURL, some e)
    | Except.ok token =>
      match getUser token.accessToken with
      | Except.error e => (none, redirectURL, some e)
      | Except.ok account =>
        (some { accessToken := token.accessToken
                refreshToken := token.refreshToken
                expiry := token.expiry
                login := account.login
                email := account.email
                forgeRemoteID := account.id
                avatar := expandAvatar defaultURL account.avatarURL },
         redirectURL, none)

/-- `GitCode.Netrc` (gitcode.go lines 344-364).  `extractHost` embeds
`common.ExtractHostFromCloneURL`, which lives outside this package. -/
def GitCode.Netrc (u : Option ModelUser) (r : Repo)
    (extractHost : String → Except String String) : Except String Netrc :=
  let login := match u with | some user => user.login | none => ""
  let token := match u with | some user => user.accessToken | none => ""
  match extractHost r.clone with
  | Except.error e => Except.error e
  | Except.ok host =>
    Except.ok { login := login
                password := token
                machine := host
                netType := ForgeTypeGitCode }

/-- `GitCode.PullRequests` (gitcode.go lines 432-450) as a function of the
result of `client.GetPullRequests`. -/
def GitCode.PullRequests (fetched : Except String (List GPullRequest)) :
    Except String (List ModelPullRequest) :=
  match fetched with
  | Except.error e =>
    if goContains e "404" then Except.ok []
    else Except.error e
  | Except.ok prs => Except.ok (prs.map convertPullRequest)

/-! ### parse.go (absent from src/)

The webhook dispatcher `parseHook` and its header constants are not part
of the provided sources: only its test (`TestParseHook`) and its caller
(`GitCode.Hook`, gitcode.go lines 452-479) are.  They are modelled from
the spec below. -/

/-- Modelled from the spec: the push value of the missing event-type
header constants of parse.go; the event names the adapter registers are
"push", "pull_request" and "release" (gitcode.go line 372). -/
def hookPush : String := "push"

/-- Modelled from the spec: the pull-request value of the missing
event-type header constants of parse.go. -/
def hookPullRequest : String := "pull_request"

/-- Modelled from the spec: the release value of the missing event-type
header constants of parse.go. -/
def hookRelease : String := "release"

/-- Modelled from the spec: the missing parse.go builder of the repository
of a push hook, mirroring `repoFromPullRequestHook` on the identical
`project` object of the push payload. -/
def repoFromPushHook (hook : pushHook) : Repo :=
  { forgeRemoteID := toString hook.project.id
    owner := hook.project.nspace
    name := hook.project.name
    fullName := hook.project.pathWithNamespace
    avatar := hook.project.avatarURL
    forgeURL := hook.project.webURL
    clone := hook.project.gitHTTPURL
    cloneSSH := hook.project.gitSSHURL
    branch := hook.project.defaultBranch
    isSCMPrivate := hook.project.visibilityLevel == 0
    perm := { pull := true, push := true, admin := false } }

/-- Modelled from the spec: the missing parse.go builder of the repository
of a release hook, from the REST `Repository` object the payload carries. -/
def repoFromReleaseHook (hook : releaseHook) : Repo :=
  { forgeRemoteID := toString hook.repo.id
    fullName := hook.repo.fullName
    clone := hook.repo.httpURLToRepo
    branch := hook.repo.defaultBranch }

/-- Modelled from the spec: the missing `parseHook` of parse.go, which
dispatches on the webhook event-type header to one of three flat parsers
(push, pull-request, release) and returns the repository and pipeline the
matching parser produced; any other header value yields nil for both.
Since the Go JSON decoding of the permissive hook structs succeeds on any
body, the request body is carried as its decoding under each of the three
schemas. -/
def parseHook (eventType : String) (pushBody : pushHook)
    (prBody : pullRequestHook) (relBody : releaseHook) (now : Int) :
    Option Repo × Option Pipeline :=
  if eventType = hookPush then
    (some (repoFromPushHook pushBody), some (pipelineFromPush pushBody now))
  else if eventType = hookPullRequest then
    (some (repoFromPullRequestHook prBody), some (pipelineFromPullRequestHook prBody))
  else if eventType = hookRelease then
    (some (repoFromReleaseHook relBody), some (pipelineFromRelease relBody))
  else
    (none, none)

/-! ### Concrete sample data (from the test payloads in helper_test.go and
gitcode_test.go), used by counterexamples and witnesses -/

/-- The single commit of the `pushHookPayload` fixture
(helper_test.go lines 164-177): it adds `README.md`. -/
def samplePushCommit : PushCommit :=
  { id := "1234567890abcdef1234567890abcdef12345678"
    message := "Initial commit"
    url := "https://gitcode.com/user/repo/commit/1234567890abcdef1234567890abcdef12345678"
    authorName := "Test User"
    authorEmail := "test@example.com"
    added := ["README.md"]
    removed := []
    modified := [] }

/-- The push hook of the `pushHookPayload` fixture (helper_test.go
lines 159-222), restricted to the embedded fields. -/
def samplePushHook : pushHook :=
  { ref := "refs/heads/main"
    before := "0000000000000000000000000000000000000000"
    after := "1234567890abcdef1234567890abcdef12345678"
    commits := [samplePushCommit] }

/-! ### Helper lemmas -/

/-- Searching for a single character distributes over list append. -/
theorem listInfix_singleton_append (c : Char) (xs ys : List Char) :
    listInfix [c] (xs ++ ys) = (listInfix [c] xs || listInfix [c] ys) := by
  induction xs with
  | nil => simp [listInfix]
  | cons x t ih =>
    simp [listInfix, List.isPrefixOf, ih, Bool.or_assoc]

/-- The API base holds no question mark, so the query check of
`makeRequest` on the full URL is the query check on the endpoint. -/
theorem goContains_query_append (e : String) :
    goContains (defaultAPI ++ e) "?" = goContains e "?" := by
  show listInfix "?".data (defaultAPI ++ e).data = listInfix "?".data e.data
  rw [String.data_append]
  rw [show ("?".data) = [Char.ofNat 63] from rfl]
  rw [listInfix_singleton_append]
  rw [show listInfix [Char.ofNat 63] defaultAPI.data = false from by decide]
  simp

/-- String append is associative. -/
theorem strAppend_assoc (a b c : String) : a ++ b ++ c = a ++ (b ++ c) := by
  apply String.ext
  simp [String.data_append]

/-- The deduplication fold never shrinks its accumulator. -/
theorem dedupFoldl_length (l : List String) : ∀ acc : List String,
    acc.length ≤
      (l.foldl (fun uniq file => if uniq.contains file then uniq else uniq ++ [file]) acc).length := by
  induction l with
  | nil => intro acc; simp
  | cons x t ih =>
    intro acc
    simp only [List.foldl_cons]
    refine le_trans ?_ (ih _)
    by_cases h : x ∈ acc <;> simp [h]

/-- Deduplication returns the empty list exactly on the empty list. -/
theorem dedupFirst_eq_nil_iff (l : List String) : dedupFirst l = [] ↔ l = [] := by
  constructor
  · intro h
    cases l with
    | nil => rfl
    | cons x t =>
      exfalso
      have hlen := dedupFoldl_length t [x]
      rw [show (t.foldl (fun uniq file => if uniq.contains file then uniq else uniq ++ [file]) [x]) =
            dedupFirst (x :: t) from by simp [dedupFirst]] at hlen
      rw [h] at hlen
      simp at hlen
  · intro h
    rw [h]
    rfl

/-! ### Claim theorems -/

/-- C1: `parseHook` dispatches on the event-type header to exactly one of
the three parsers: the push header yields the push repository and a
pipeline whose event is push, the pull-request header yields the
pull-request repository and pipeline, the release header the release
ones, and every other header value yields nil for both repository and
pipeline. -/
theorem parseHook_dispatch (pushBody : pushHook) (prBody : pullRequestHook)
    (relBody : releaseHook) (now : Int) :
    (parseHook hookPush pushBody prBody relBody now =
        (some (repoFromPushHook pushBody), some (pipelineFromPush pushBody now)) ∧
      (pipelineFromPush pushBody now).event = WebhookEvent.push) ∧
    parseHook hookPullRequest pushBody prBody relBody now =
      (some (repoFromPullRequestHook prBody), some (pipelineFromPullRequestHook prBody)) ∧
    parseHook hookRelease pushBody prBody relBody now =
      (some (repoFromReleaseHook relBody), some (pipelineFromRelease relBody)) ∧
    ∀ eventType : String, eventType ≠ hookPush → eventType ≠ hookPullRequest →
      eventType ≠ hookRelease →
      parseHook eventType pushBody prBody relBody now = (none, none) := by
  refine ⟨⟨rfl, rfl⟩, ?_, ?_, ?_⟩
  · simp [parseHook, hookPush, hookPullRequest]
  · simp [parseHook, hookPush, hookPullRequest, hookRelease]
  · intro eventType h1 h2 h3
    simp [parseHook, h1, h2, h3]

/-- C1 witness: the unsupported header value of `TestParseHook`
(helper_test.go lines 130-135) yields nil for both results. -/
theorem parseHook_dispatch_witness :
    parseHook "issues" {} {} {} 0 = (none, none) :=
  (parseHook_dispatch {} {} {} 0).2.2.2 "issues" (by decide) (by decide) (by decide)

/-- C2: the pipeline of a pull-request hook has the pull-closed event
exactly when the merge request action is "close" or its state is
"closed" (and the pull event otherwise), the last-commit ID as commit,
the ref built from the IID, the target branch as branch, the
source-colon-target refspec, and the fork flag exactly when the source
and target project IDs differ. -/
theorem pipelineFromPullRequestHook_fields (hook : pullRequestHook) :
    ((pipelineFromPullRequestHook hook).event = WebhookEvent.pullClosed ↔
      (hook.mergeRequest.action = "close" ∨ hook.mergeRequest.state = "closed")) ∧
    ((pipelineFromPullRequestHook hook).event = WebhookEvent.pull ↔
      ¬(hook.mergeRequest.action = "close" ∨ hook.mergeRequest.state = "closed")) ∧
    (pipelineFromPullRequestHook hook).commit = hook.mergeRequest.lastCommit.id ∧
    (pipelineFromPullRequestHook hook).ref =
      "refs/pull/" ++ toString hook.mergeRequest.iid ++ "/head" ∧
    (pipelineFromPullRequestHook hook).branch = hook.mergeRequest.targetBranch ∧
    (pipelineFromPullRequestHook hook).refspec =
      hook.mergeRequest.sourceBranch ++ ":" ++ hook.mergeRequest.targetBranch ∧
    ((pipelineFromPullRequestHook hook).fromFork = true ↔
      hook.mergeRequest.source.id ≠ hook.mergeRequest.target.id) := by
  refine ⟨?_, ?_, rfl, rfl, rfl, rfl, ?_⟩
  · by_cases h1 : hook.mergeRequest.action = "close" <;>
      by_cases h2 : hook.mergeRequest.state = "closed" <;>
      simp [pipelineFromPullRequestHook, h1, h2]
  · by_cases h1 : hook.mergeRequest.action = "close" <;>
      by_cases h2 : hook.mergeRequest.state = "closed" <;>
      simp [pipelineFromPullRequestHook, h1, h2]
  · simp [pipelineFromPullRequestHook, bne_iff_ne]

/-- C3: each of the client helpers fails exactly when the response status
is at least 400 or, for `get` and `post` with a result target supplied,
when the body fails to decode. -/
theorem client_error_iff (resp : Response) (result : Option (String → Except String Unit)) :
    (GitCodeClient.get resp result ≠ Except.ok () ↔
      resp.statusCode ≥ 400 ∨ ∃ d, result = some d ∧ d resp.body ≠ Except.ok ()) ∧
    (GitCodeClient.post resp result ≠ Except.ok () ↔
      resp.statusCode ≥ 400 ∨ ∃ d, result = some d ∧ d resp.body ≠ Except.ok ()) ∧
    (GitCodeClient.delete resp ≠ Except.ok () ↔ resp.statusCode ≥ 400) := by
  by_cases hs : resp.statusCode ≥ 400
  · refine ⟨?_, ?_, ?_⟩ <;>
      simp [GitCodeClient.get, GitCodeClient.post, GitCodeClient.delete, hs]
  · cases result with
    | none =>
      refine ⟨?_, ?_, ?_⟩ <;>
        simp [GitCodeClient.get, GitCodeClient.post, GitCodeClient.delete, hs]
    | some d =>
      cases hd : d resp.body with
      | error e =>
        refine ⟨?_, ?_, ?_⟩ <;>
          simp [GitCodeClient.get, GitCodeClient.post, GitCodeClient.delete, hs, hd]
      | ok u =>
        cases u
        refine ⟨?_, ?_, ?_⟩ <;>
          simp [GitCodeClient.get, GitCodeClient.post, GitCodeClient.delete, hs, hd]

/-- C4: the URL built by `makeRequest` is the API base plus the endpoint;
with a non-empty token the `access_token` parameter is appended, joined
with an ampersand exactly when the endpoint already holds a question
mark, and with an empty token nothing is appended. -/
theorem makeRequestURL_spec (token endpoint : String) :
    (token ≠ "" → makeRequestURL token endpoint =
      defaultAPI ++ endpoint ++
        ((if goContains endpoint "?" then "&" else "?") ++ ("access_token=" ++ token))) ∧
    (token = "" → makeRequestURL token endpoint = defaultAPI ++ endpoint) := by
  constructor
  · intro ht
    simp only [makeRequestURL, goContains_query_append, if_pos ht]
    cases hq : goContains endpoint "?" <;> simp [hq, ← strAppend_assoc]
  · intro ht
    simp [makeRequestURL, ht]

/-- C4 witness: a concrete endpoint without and with a query, and an
empty token. -/
theorem makeRequestURL_spec_witness :
    makeRequestURL "tok" "/user" =
      defaultAPI ++ "/user" ++
        ((if goContains "/user" "?" then "&" else "?") ++ ("access_token=" ++ "tok")) ∧
    makeRequestURL "" "/user" = defaultAPI ++ "/user" :=
  ⟨(makeRequestURL_spec "tok" "/user").1 (by decide),
   (makeRequestURL_spec "" "/user").2 rfl⟩

/-- C5: the branch of a push pipeline is the hook ref with the "refs/heads/"
prefix removed while the ref is passed through unchanged, and a tag
ref of a tag pipeline is "refs/tags/" plus the stripped tag name with the
message "created tag" plus that name. -/
theorem push_tag_ref_handling (hook : pushHook) (now : Int) :
    (pipelineFromPush hook now).branch = trimPrefixStr hook.ref "refs/heads/" ∧
    (pipelineFromPush hook now).ref = hook.ref ∧
    (pipelineFromTag hook now).ref = "refs/tags/" ++ trimPrefixStr hook.ref "refs/tags/" ∧
    (pipelineFromTag hook now).message = "created tag " ++ trimPrefixStr hook.ref "refs/tags/" := by
  refine ⟨?_, ?_, ?_, ?_⟩ <;> simp [pipelineFromPush, pipelineFromTag]

/-- C6: a login request with an empty code returns no user, the redirect
URL and no error, independently of the exchange and user lookup; with a
non-empty code whose exchange and user lookup succeed it returns the user
populated with the token fields and the account fields. -/
theorem login_oauth_spec (req : OAuthRequest) (redirectURL : String)
    (exchange exchange2 : String → Except String OAuthToken)
    (getUser getUser2 : String → Except String GUser) :
    (req.code.length = 0 →
      GitCode.Login req redirectURL exchange getUser = (none, redirectURL, none) ∧
      GitCode.Login req redirectURL exchange getUser =
        GitCode.Login req redirectURL exchange2 getUser2) ∧
    (∀ token account, req.code.length ≠ 0 →
      exchange req.code = Except.ok token →
      getUser token.accessToken = Except.ok account →
      GitCode.Login req redirectURL exchange getUser =
        (some { accessToken := token.accessToken
                refreshToken := token.refreshToken
                expiry := token.expiry
                login := account.login
                email := account.email
                forgeRemoteID := account.id
                avatar := expandAvatar defaultURL account.avatarURL },
         redirectURL, none)) := by
  constructor
  · intro h
    constructor <;> simp [GitCode.Login, h]
  · intro token account h he hg
    simp [GitCode.Login, h, he, hg]

/-- C6 witness: the two login paths at concrete inputs. -/
theorem login_oauth_spec_witness :
    GitCode.Login { code := "", state := "s" } "redir"
        (fun _ => Except.ok { accessToken := "at", refreshToken := "rt", expiry := 5 })
        (fun _ => Except.ok { id := "7", login := "alice", email := "a@b", avatarURL := "" })
      = (none, "redir", none) ∧
    GitCode.Login { code := "c", state := "s" } "redir"
        (fun _ => Except.ok { accessToken := "at", refreshToken := "rt", expiry := 5 })
        (fun _ => Except.ok { id := "7", login := "alice", email := "a@b", avatarURL := "" })
      = (some { accessToken := "at", refreshToken := "rt", expiry := 5, login := "alice",
                email := "a@b", forgeRemoteID := "7", avatar := "" },
         "redir", none) :=
  ⟨((login_oauth_spec { code := "", state := "s" } "redir"
      (fun _ => Except.ok { accessToken := "at", refreshToken := "rt", expiry := 5 })
      (fun _ => Except.ok { accessToken := "at", refreshToken := "rt", expiry := 5 })
      (fun _ => Except.ok { id := "7", login := "alice", email := "a@b", avatarURL := "" })
      (fun _ => Except.ok { id := "7", login := "alice", email := "a@b", avatarURL := "" })).1
      rfl).1,
   (login_oauth_spec { code := "c", state := "s" } "redir"
      (fun _ => Except.ok { accessToken := "at", refreshToken := "rt", expiry := 5 })
      (fun _ => Except.ok { accessToken := "at", refreshToken := "rt", expiry := 5 })
      (fun _ => Except.ok { id := "7", login := "alice", email := "a@b", avatarURL := "" })
      (fun _ => Except.ok { id := "7", login := "alice", email := "a@b", avatarURL := "" })).2
      { accessToken := "at", refreshToken := "rt", expiry := 5 }
      { id := "7", login := "alice", email := "a@b", avatarURL := "" }
      (by decide) rfl rfl⟩

/-- C7: the avatar expansion returns the empty string on an empty avatar,
the avatar unchanged when it starts with "http", "https:" prepended when
it starts with "//" but not "http", the base URL with its path replaced
when it starts with a single "/", and the path-join of base and avatar
otherwise. -/
theorem expandAvatar_cases (baseURL avatarURL : String) :
    (avatarURL = "" → expandAvatar baseURL avatarURL = "") ∧
    (hasPrefixStr avatarURL "http" = true → expandAvatar baseURL avatarURL = avatarURL) ∧
    (hasPrefixStr avatarURL "http" = false → hasPrefixStr avatarURL "//" = true →
      expandAvatar baseURL avatarURL = "https:" ++ avatarURL) ∧
    (avatarURL ≠ "" → hasPrefixStr avatarURL "http" = false →
      hasPrefixStr avatarURL "//" = false → hasPrefixStr avatarURL "/" = true →
      expandAvatar baseURL avatarURL = urlSetPath baseURL avatarURL) ∧
    (avatarURL ≠ "" → hasPrefixStr avatarURL "http" = false →
      hasPrefixStr avatarURL "//" = false → hasPrefixStr avatarURL "/" = false →
      expandAvatar baseURL avatarURL = pathJoin baseURL avatarURL) := by
  refine ⟨?_, ?_, ?_, ?_, ?_⟩
  · intro h
    simp [expandAvatar, h]
  · intro h
    have hne : avatarURL ≠ "" := by
      intro he
      rw [he] at h
      exact absurd h (by decide)
    simp [expandAvatar, h, hne]
  · intro h1 h2
    have hne : avatarURL ≠ "" := by
      intro he
      rw [he] at h2
      exact absurd h2 (by decide)
    simp [expandAvatar, h1, h2, hne]
  · intro hne h1 h2 h3
    simp [expandAvatar, h1, h2, h3, hne]
  · intro hne h1 h2 h3
    simp [expandAvatar, h1, h2, h3, hne]

/-- C7 witness: the relative-path case of `TestExpandAvatar`
(helper_test.go lines 67-72). -/
theorem expandAvatar_cases_witness :
    expandAvatar "https://gitcode.com/user/repo" "/avatars/1" =
      "https://gitcode.com/avatars/1" :=
  ((expandAvatar_cases "https://gitcode.com/user/repo" "/avatars/1").2.2.2.1
    (by decide) (by decide) (by decide) (by decide)).trans (by decide)

/-- C8: the netrc record carries the login and access token of the user (empty
for a nil user), the host extracted from the clone URL, and the GitCode
forge type; host-extraction failure is returned as the error. -/
theorem netrc_spec (u : ModelUser) (r : Repo) (extractHost : String → Except String String) :
    (∀ host, extractHost r.clone = Except.ok host →
      GitCode.Netrc (some u) r extractHost =
        Except.ok { login := u.login, password := u.accessToken,
                    machine := host, netType := ForgeTypeGitCode } ∧
      GitCode.Netrc none r extractHost =
        Except.ok { login := "", password := "",
                    machine := host, netType := ForgeTypeGitCode }) ∧
    (∀ e, extractHost r.clone = Except.error e →
      GitCode.Netrc (some u) r extractHost = Except.error e ∧
      GitCode.Netrc none r extractHost = Except.error e) := by
  constructor
  · intro host hhost
    constructor <;> simp [GitCode.Netrc, hhost]
  · intro e he
    constructor <;> simp [GitCode.Netrc, he]

/-- C8 witness: the fixture of `TestGitCodeNetrc` (gitcode_test.go
lines 41-65). -/
theorem netrc_spec_witness :
    GitCode.Netrc (some { login := "testuser", accessToken := "test-token" })
        { clone := "https://gitcode.com/testuser/testrepo.git" }
        (fun _ => Except.ok "gitcode.com") =
      Except.ok { login := "testuser", password := "test-token",
                  machine := "gitcode.com", netType := ForgeTypeGitCode } :=
  ((netrc_spec { login := "testuser", accessToken := "test-token" }
      { clone := "https://gitcode.com/testuser/testrepo.git" }
      (fun _ => Except.ok "gitcode.com")).1 "gitcode.com" rfl).1

/-- C9 counterexample: on the push fixture, which adds `README.md`, the
first revision returns the empty list while the second returns the file,
so the two revisions do not compute the same function. -/
theorem changedFiles_counterexample :
    getChangedFilesFromPushHook samplePushHook ≠
      getChangedFilesFromPushHookDedup samplePushHook := by
  decide

/-- C9 amended: the two revisions of `getChangedFilesFromPushHook` return
equal results exactly on push hooks whose commits list no added, modified
or removed files. -/
theorem changedFiles_agree_iff (hook : pushHook) :
    getChangedFilesFromPushHook hook = getChangedFilesFromPushHookDedup hook ↔
      pushHookFiles hook = [] := by
  unfold getChangedFilesFromPushHook getChangedFilesFromPushHookDedup
  constructor
  · intro h
    exact (dedupFirst_eq_nil_iff _).1 h.symm
  · intro h
    rw [h]
    rfl

/-- C10: when the pull-request listing fails with an error mentioning
"404" the forge returns an empty list and no error; any other listing
error is returned unchanged, and a successful listing is converted
element-wise. -/
theorem pullRequests_404_spec (e : String) (prs : List GPullRequest) :
    (goContains e "404" = true →
      GitCode.PullRequests (Except.error e) = Except.ok []) ∧
    (goContains e "404" = false →
      GitCode.PullRequests (Except.error e) = Except.error e) ∧
    GitCode.PullRequests (Except.ok prs) = Except.ok (prs.map convertPullRequest) := by
  refine ⟨?_, ?_, rfl⟩ <;> intro h <;> simp [GitCode.PullRequests, h]

/-- C10 witness: a 404 listing error is swallowed into an empty list and
a 500 error is propagated unchanged. -/
theorem pullRequests_404_spec_witness :
    GitCode.PullRequests (Except.error "API error 404: not found") = Except.ok [] ∧
    GitCode.PullRequests (Except.error "API error 500: boom") =
      Except.error "API error 500: boom" :=
  ⟨(pullRequests_404_spec "API error 404: not found" []).1 (by decide),
   (pullRequests_404_spec "API error 500: boom" []).2.1 (by decide)⟩

end Gitcode
